import Mathlib

/-!
Verification of the Darwin Core conversion script `convert_to_dwc.py`.

The script reads three tables (Station, CPUE, Measurements) from a workbook,
derives a two-level event hierarchy (cruise events and station events), an
occurrence list, and a measurement-or-fact list, and writes three CSV files.

Modelling conventions for the shallow embedding:
* a dataframe is a `List` of row structures, in source row order;
* a possibly-missing cell (`NaN` under `pd.notna`) is an `Option`;
* cell values that the script only ever formats into strings are carried as
  their rendered `String` form; the cruise identifier column is a pandas
  float (every finite float value is a dyadic rational), carried as an
  `Option ℚ`, and the script's `int(...)` / `.astype(int)` coercion — which
  truncates toward zero, so non-integer identifiers of the same type can
  collapse onto one rendered identifier — is modelled by `truncInt`;
* key columns that the script never null-checks and uses as identifiers
  (`station`, `Station`, `type`, `Species`) are plain `String`s; for columns
  rendered via pandas `astype(str)` a missing value renders as "nan", which
  we model with `Option.getD _ "nan"`;
* Python's `str(int)` rendering is modelled by `intRepr` below, and
  `", ".join` / `"; ".join` by `joinSep`.
-/

namespace MobDwc

/-- Decimal digit character, as produced by Python `str` on integers. -/
def digitChar : Nat → Char
  | 0 => '0'
  | 1 => '1'
  | 2 => '2'
  | 3 => '3'
  | 4 => '4'
  | 5 => '5'
  | 6 => '6'
  | 7 => '7'
  | 8 => '8'
  | 9 => '9'
  | _ => '?'

/-- Numeric value of a digit character (inverse of `digitChar`). -/
def charVal (c : Char) : Nat := c.toNat - 48

/-- Decimal digits of a natural number, most significant first; the first
argument is recursion fuel (any fuel above the number itself is enough). -/
def natDigitsAux : Nat → Nat → List Char
  | 0, _ => []
  | fuel + 1, n =>
    if n < 10 then [digitChar n]
    else natDigitsAux fuel (n / 10) ++ [digitChar (n % 10)]

/-- Decimal rendering of a natural number, as Python `str` does. -/
def natRepr (n : Nat) : String := ⟨natDigitsAux (n + 1) n⟩

/-- Rendering of an integer, as Python `str` does: optional minus sign
followed by decimal digits. -/
def intRepr : Int → String
  | Int.ofNat n => natRepr n
  | Int.negSucc n => "-" ++ natRepr (n + 1)

/-- Python `int(x)` / pandas `.astype(int)` on a (rational) float value:
truncation toward zero, as integer division of the reduced numerator by the
positive denominator. -/
def truncInt (q : ℚ) : Int := Int.tdiv q.num (q.den : Int)

/-- Python `sep.join(parts)`. -/
def joinSep (sep : String) : List String → String
  | [] => ""
  | [x] => x
  | x :: y :: xs => x ++ sep ++ joinSep sep (y :: xs)

theorem charVal_digitChar {m : Nat} (h : m < 10) : charVal (digitChar m) = m := by
  interval_cases m <;> rfl

theorem digitChar_ne_underscore {m : Nat} (h : m < 10) : digitChar m ≠ '_' := by
  interval_cases m <;> decide

theorem digitChar_ne_minus {m : Nat} (h : m < 10) : digitChar m ≠ '-' := by
  interval_cases m <;> decide

theorem mem_natDigitsAux {c : Char} :
    ∀ fuel n, c ∈ natDigitsAux fuel n → ∃ m, m < 10 ∧ c = digitChar m := by
  intro fuel
  induction fuel with
  | zero => intro n h; simp [natDigitsAux] at h
  | succ fuel ih =>
    intro n h
    simp only [natDigitsAux] at h
    by_cases hn : n < 10
    · rw [if_pos hn] at h
      simp at h
      exact ⟨n, hn, h⟩
    · rw [if_neg hn] at h
      rcases List.mem_append.mp h with h1 | h2
      · exact ih _ h1
      · simp at h2
        exact ⟨n % 10, Nat.mod_lt _ (by omega), h2⟩

theorem natDigitsAux_ne_nil (n : Nat) : natDigitsAux (n + 1) n ≠ [] := by
  simp only [natDigitsAux]
  by_cases hn : n < 10
  · rw [if_pos hn]; simp
  · rw [if_neg hn]; simp

/-- Fold a digit string back to the number it denotes. -/
def parseNum (l : List Char) : Nat := l.foldl (fun a c => a * 10 + charVal c) 0

theorem parseNum_append_digit (xs : List Char) (c : Char) :
    parseNum (xs ++ [c]) = parseNum xs * 10 + charVal c := by
  simp [parseNum, List.foldl_append]

theorem parseNum_natDigitsAux :
    ∀ fuel n, n < fuel → parseNum (natDigitsAux fuel n) = n := by
  intro fuel
  induction fuel with
  | zero => intro n h; omega
  | succ fuel ih =>
    intro n h
    simp only [natDigitsAux]
    by_cases hn : n < 10
    · rw [if_pos hn]
      simp [parseNum, charVal_digitChar hn]
    · rw [if_neg hn]
      rw [parseNum_append_digit, ih (n / 10) (by omega),
        charVal_digitChar (Nat.mod_lt _ (by omega))]
      omega

theorem natRepr_inj {a b : Nat} (h : natRepr a = natRepr b) : a = b := by
  have hd : natDigitsAux (a + 1) a = natDigitsAux (b + 1) b :=
    congrArg String.data h
  have ha := parseNum_natDigitsAux (a + 1) a (by omega)
  have hb := parseNum_natDigitsAux (b + 1) b (by omega)
  rw [hd] at ha
  omega

theorem underscore_not_mem_natRepr (n : Nat) : '_' ∉ (natRepr n).data := by
  intro hmem
  obtain ⟨m, hm, hcm⟩ := mem_natDigitsAux _ _ hmem
  exact digitChar_ne_underscore hm hcm.symm

theorem underscore_not_mem_intRepr (i : Int) : '_' ∉ (intRepr i).data := by
  cases i with
  | ofNat n => exact underscore_not_mem_natRepr n
  | negSucc n =>
    intro hmem
    simp only [intRepr, String.data_append] at hmem
    rcases List.mem_append.mp hmem with h1 | h2
    · simp at h1
    · exact underscore_not_mem_natRepr _ h2

theorem intRepr_inj {a b : Int} (h : intRepr a = intRepr b) : a = b := by
  have minus_not_mem : ∀ n : Nat, '-' ∉ (natRepr n).data := by
    intro n hmem
    obtain ⟨m, hm, hcm⟩ := mem_natDigitsAux _ _ hmem
    exact digitChar_ne_minus hm hcm.symm
  have head_cases : ∀ n m : Nat, natRepr n ≠ "-" ++ natRepr (m + 1) := by
    intro n m heq
    have hd : (natRepr n).data = '-' :: (natRepr (m + 1)).data := by
      have := congrArg String.data heq
      simpa [String.data_append] using this
    exact minus_not_mem n (hd ▸ List.mem_cons_self _ _)
  cases a with
  | ofNat a =>
    cases b with
    | ofNat b => exact congrArg Int.ofNat (natRepr_inj h)
    | negSucc b => exact absurd h (head_cases a b)
  | negSucc a =>
    cases b with
    | ofNat b => exact absurd h.symm (head_cases b a)
    | negSucc b =>
      have hd := congrArg String.data h
      simp only [intRepr, String.data_append] at hd
      have : (natRepr (a + 1)).data = (natRepr (b + 1)).data :=
        List.append_cancel_left hd
      have hab := natRepr_inj (String.ext this)
      exact congrArg Int.negSucc (by omega)

theorem append_cons_inj {α : Type} (c : α) :
    ∀ xs ys us vs : List α, c ∉ xs → c ∉ ys →
    xs ++ c :: us = ys ++ c :: vs → xs = ys ∧ us = vs := by
  intro xs
  induction xs with
  | nil =>
    intro ys us vs _ hy h
    cases ys with
    | nil => simpa using h
    | cons y ys =>
      simp only [List.nil_append, List.cons_append, List.cons.injEq] at h
      exact absurd (h.1 ▸ List.mem_cons_self y ys) hy
  | cons x xs ih =>
    intro ys us vs hx hy h
    cases ys with
    | nil =>
      simp only [List.cons_append, List.nil_append, List.cons.injEq] at h
      exact absurd (h.1 ▸ List.mem_cons_self x xs) hx
    | cons y ys =>
      simp only [List.cons_append, List.cons.injEq] at h
      obtain ⟨hxy, hrest⟩ := h
      obtain ⟨h1, h2⟩ := ih ys us vs (fun hm => hx (List.mem_cons_of_mem _ hm))
        (fun hm => hy (hxy ▸ List.mem_cons_of_mem _ hm)) hrest
      exact ⟨by rw [hxy, h1], h2⟩

theorem append_cons_inj_right {α : Type} (c : α)
    (xs ys us vs : List α) (hu : c ∉ us) (hv : c ∉ vs)
    (h : xs ++ c :: us = ys ++ c :: vs) : xs = ys ∧ us = vs := by
  have hrev : us.reverse ++ c :: xs.reverse = vs.reverse ++ c :: ys.reverse := by
    have := congrArg List.reverse h
    simpa [List.reverse_append] using this
  have hu2 : c ∉ us.reverse := by simpa using hu
  have hv2 : c ∉ vs.reverse := by simpa using hv
  obtain ⟨h1, h2⟩ := append_cons_inj c _ _ _ _ hu2 hv2 hrev
  constructor
  · have := congrArg List.reverse h2
    simpa using this
  · have := congrArg List.reverse h1
    simpa using this

theorem string_underscore_data (X D : String) :
    (X ++ "_" ++ D).data = X.data ++ '_' :: D.data := by
  simp [String.data_append]

/-- Splitting an id of the form `X ++ "_" ++ D` where the tail `D` contains
no underscore (the tail is the 1-based row index rendered in decimal). -/
theorem underscore_split_right {X₁ X₂ D₁ D₂ : String}
    (h₁ : '_' ∉ D₁.data) (h₂ : '_' ∉ D₂.data)
    (h : X₁ ++ "_" ++ D₁ = X₂ ++ "_" ++ D₂) : X₁ = X₂ ∧ D₁ = D₂ := by
  have hd := congrArg String.data h
  rw [string_underscore_data, string_underscore_data] at hd
  obtain ⟨ha, hb⟩ := append_cons_inj_right '_' _ _ _ _ h₁ h₂ hd
  exact ⟨String.ext ha, String.ext hb⟩

/-- Splitting an id of the form `X ++ "_" ++ T` where the head `X` contains
no underscore (the head is the rendered integer cruise identifier). -/
theorem underscore_split_left {X₁ X₂ T₁ T₂ : String}
    (h₁ : '_' ∉ X₁.data) (h₂ : '_' ∉ X₂.data)
    (h : X₁ ++ "_" ++ T₁ = X₂ ++ "_" ++ T₂) : X₁ = X₂ ∧ T₁ = T₂ := by
  have hd := congrArg String.data h
  rw [string_underscore_data, string_underscore_data] at hd
  obtain ⟨ha, hb⟩ := append_cons_inj '_' _ _ _ _ h₁ h₂ hd
  exact ⟨String.ext ha, String.ext hb⟩

theorem truncInt_intCast (n : Int) : truncInt ((n : ℚ)) = n := by
  simp only [truncInt, Rat.intCast_num, Rat.intCast_den, Nat.cast_one]
  exact Int.tdiv_one n

theorem truncInt_den_one {q : ℚ} (h : q.den = 1) : truncInt q = q.num := by
  simp only [truncInt, h, Nat.cast_one]
  exact Int.tdiv_one q.num

theorem cast_num_of_den_one {q : ℚ} (h : q.den = 1) : (q.num : ℚ) = q := by
  have hq := Rat.num_div_den q
  rw [h] at hq
  simpa using hq

/-!
Data model: one structure per input sheet row.  Optional fields default to
`none` so that concrete test rows can be written compactly.
-/

/-- One row of the `Station` sheet. -/
structure StationRow where
  station : String
  cruise_id : Option ℚ := none
  type : String := ""
  datetime : Option String := none
  lat_start : Option String := none
  lon_start : Option String := none
  lat_end : Option String := none
  lon_end : Option String := none
  depth : Option String := none
  notes : Option String := none
  participants : Option String := none
  wind_speed : Option String := none
  wind_dir : Option String := none
  wave_height : Option String := none
  cloud_cover_10th : Option String := none
  ropeless_id : Option String := none
  deriving DecidableEq

/-- One row of the `CPUE` sheet. -/
structure CpueRow where
  Station : String
  Pot_ID : Option String := none
  Species : String := ""
  Pot_position : Option String := none
  Near_Far : Option String := none
  Catch : Option String := none
  Notes : Option String := none
  deriving DecidableEq

/-- One row of the `Measurements` sheet; `nearFar` models the source column
named `Near/Far`. -/
structure MeasRow where
  Station : String
  Species : String := ""
  Sex : Option String := none
  TL_mm : Option String := none
  Wt_g_recorded : Option String := none
  scale_tare_g : Option String := none
  Wt_g : Option String := none
  Retained : Option String := none
  Barotrauma : Option String := none
  Notes : Option String := none
  nearFar : Option String := none
  deriving DecidableEq

/-- One row of the combined event core (`event_core` after `pd.concat`);
the column union of the cruise-event frame and the station-event frame,
so it carries `footprintWKT` as well as the station columns. -/
structure EventRow where
  eventID : Option String := none
  locationID : Option String := none
  parentEventID : Option String := none
  eventDate : Option String := none
  eventType : Option String := none
  decimalLatitude : Option String := none
  decimalLongitude : Option String := none
  minimumDepthInMeters : Option String := none
  maximumDepthInMeters : Option String := none
  eventRemarks : Option String := none
  recordedBy : Option String := none
  footprintWKT : Option String := none
  deriving DecidableEq

/-- One row of the combined occurrence output (`occurrence_combined`). -/
structure OccRow where
  occurrenceID : String
  eventID : String
  vernacularName : String
  individualCount : Option String := none
  occurrenceRemarks : Option String := none
  basisOfRecord : String
  sex : Option String := none
  deriving DecidableEq

/-- One record of the MeasurementOrFact extension.  In the source each record
is a dict; a key absent from the dict becomes `NaN` in the final frame, which
we model as `none` (`measurementUnit` is given explicitly, possibly `""`, in
every record, so it stays a plain `String`). -/
structure MofRecord where
  occurrenceID : Option String := none
  eventID : Option String := none
  measurementType : String
  measurementValue : String
  measurementUnit : String
  measurementUnitID : Option String := none
  deriving DecidableEq

/-!
Event builder (source lines 30-104).
-/

/-- Coordinate strings contributed by one station row to its cruise group
footprint (source lines 42-47): the start pair when both its ordinates are
non-missing, then the end pair when both its ordinates are non-missing. -/
def rowCoords (r : StationRow) : List String :=
  (match r.lon_start, r.lat_start with
    | some lo, some la => [lo ++ " " ++ la]
    | _, _ => []) ++
  (match r.lon_end, r.lat_end with
    | some lo, some la => [lo ++ " " ++ la]
    | _, _ => [])

/-- Footprint of a coordinate list (source line 49): Python renders
`None` when the list is empty. -/
def mkFootprint : List String → Option String
  | [] => none
  | c :: cs => some ("LINESTRING (" ++ joinSep ", " (c :: cs) ++ ")")

/-- The synthetic cruise event identifier `f"{int(cruise_id)}_{type}"`
(source line 52), also used as the station parent id (source lines 72-73);
`c` is the already-truncated integer form of the cruise identifier. -/
def cidTypeId (c : Int) (t : String) : String := intRepr c ++ "_" ++ t

/-- The distinct `(cruise_id, type)` pairs of the station table, rows with a
missing cruise identifier dropped, one key per group (source line 30:
`groupby(['cruise_id', 'type'])`; pandas drops null keys and emits one group
per distinct key; no claim depends on the emission order of the groups,
modelled here as first-appearance order). -/
def keyList : List StationRow → List (ℚ × String)
  | [] => []
  | r :: rs =>
    match r.cruise_id with
    | none => keyList rs
    | some c => (c, r.type) :: (keyList rs).erase (c, r.type)

/-- The member rows of one cruise group, in original row order (the
per-group `list(x)` aggregation of source lines 31-34). -/
def groupMembers (st : List StationRow) (c : ℚ) (t : String) : List StationRow :=
  st.filter (fun r => r.cruise_id == some c && r.type == t)

/-- All footprint coordinates of a group, member rows in order, start pair
before end pair within a row (source lines 41-47). -/
def groupCoords : List StationRow → List String
  | [] => []
  | r :: rs => rowCoords r ++ groupCoords rs

/-- The cruise event built for one group key (source lines 51-57).  The
`datetime` aggregation `'first'` takes the first non-missing value.  Fields
absent from the cruise-event dict are `none` in the concatenated frame. -/
def mkCruiseRow (st : List StationRow) (k : ℚ × String) : EventRow :=
  { eventID := some (cidTypeId (truncInt k.1) k.2)
    eventDate := ((groupMembers st k.1 k.2).filterMap (fun r => r.datetime)).head?
    eventType := some (k.2 ++ " cruise")
    parentEventID := none
    footprintWKT := mkFootprint (groupCoords (groupMembers st k.1 k.2)) }

/-- All cruise events, one per group (source lines 38-59). -/
def cruiseRows (st : List StationRow) : List EventRow :=
  (keyList st).map (mkCruiseRow st)

/-- The station event derived from one station row (source lines 69-98). -/
def stationEventRow (r : StationRow) : EventRow :=
  { eventID := some r.station
    locationID := some r.station
    parentEventID := r.cruise_id.map (fun c => cidTypeId (truncInt c) r.type)
    eventDate := r.datetime
    eventType := some r.type
    decimalLatitude := r.lat_start
    decimalLongitude := r.lon_start
    minimumDepthInMeters := r.depth
    maximumDepthInMeters := r.depth
    eventRemarks := r.notes
    recordedBy := r.participants
    footprintWKT := none }

/-- The station events (source lines 69-98).  The column conversion
`station_events['cruise_id'].astype(int)` (line 72) raises on a missing
cruise identifier, so the whole derivation fails (`none`) unless every row
has one. -/
def stationEvents (st : List StationRow) : Option (List EventRow) :=
  if st.all (fun r => r.cruise_id.isSome) then some (st.map stationEventRow)
  else none

/-- The combined event core, cruise events first (source line 101), absent
when the station-event derivation raised. -/
def eventCore (st : List StationRow) : Option (List EventRow) :=
  (stationEvents st).map (fun sevs => cruiseRows st ++ sevs)

/-- Columns of the cruise-event frame, in dict-key order (source lines
51-57); `pd.DataFrame([])` on an empty record list has no columns at all. -/
def cruiseEventColumns (st : List StationRow) : List String :=
  if keyList st = [] then []
  else ["eventID", "eventDate", "eventType", "parentEventID", "footprintWKT"]

/-- Columns of the station-event frame, in selection order (source lines
94-98). -/
def stationEventColumns : List String :=
  ["eventID", "locationID", "parentEventID", "eventDate", "eventType",
   "decimalLatitude", "decimalLongitude", "minimumDepthInMeters",
   "maximumDepthInMeters", "eventRemarks", "recordedBy"]

/-- Columns of the written event table: `pd.concat` takes the columns of the
first frame followed by the new columns of the second, in order (source
lines 101 and 338). -/
def eventCoreColumns (st : List StationRow) : List String :=
  cruiseEventColumns st ++
    stationEventColumns.filter (fun c => c ∉ cruiseEventColumns st)

/-!
Occurrence builder (source lines 111-167).
-/

/-- Pandas `astype(str)` on a possibly-missing cell: `NaN` renders as
`"nan"`. -/
def astypeStr (v : Option String) : String := v.getD "nan"

/-- The per-row part of a catch occurrence identifier, before the 1-based
row index (source lines 111-114). -/
def catchKey (r : CpueRow) : String :=
  r.Station ++ "_" ++ astypeStr r.Pot_ID ++ "_" ++ r.Species

/-- The per-row part of a measurement occurrence identifier, before the
1-based row index (source lines 134-137). -/
def measKey (r : MeasRow) : String :=
  "MEAS_" ++ r.Station ++ "_" ++ r.Species

/-- Identifiers `key ++ "_" ++ index` for a list of rows, indices counting
up from `k` (the source uses `df.index + 1`, so the first row gets 1). -/
def idList {α : Type} (f : α → String) : Nat → List α → List String
  | _, [] => []
  | k, r :: rs => (f r ++ "_" ++ natRepr k) :: idList f (k + 1) rs

/-- Remark combination for measurement occurrences (source lines 140-146). -/
def combine_remarks (baro notes : Option String) : Option String :=
  match (match baro with
          | some b => ["Barotrauma: " ++ b]
          | none => []) ++
        (match notes with
          | some n => [n]
          | none => []) with
  | [] => none
  | p :: ps => some (joinSep "; " (p :: ps))

/-- Catch-derived occurrence rows, indices counting up from `k` (source
lines 111-125); the `sex` column only exists on the measurement side, so it
is `NaN` here after the concat. -/
def catchOccs : Nat → List CpueRow → List OccRow
  | _, [] => []
  | k, r :: rs =>
    { occurrenceID := catchKey r ++ "_" ++ natRepr k
      eventID := r.Station
      vernacularName := r.Species
      individualCount := r.Catch
      occurrenceRemarks := r.Notes
      basisOfRecord := "HumanObservation"
      sex := none } :: catchOccs (k + 1) rs

/-- Measurement-derived occurrence rows, indices counting up from `k`
(source lines 134-160); `individualCount` only exists on the catch side. -/
def measOccs : Nat → List MeasRow → List OccRow
  | _, [] => []
  | k, r :: rs =>
    { occurrenceID := measKey r ++ "_" ++ natRepr k
      eventID := r.Station
      vernacularName := r.Species
      individualCount := none
      occurrenceRemarks := combine_remarks r.Barotrauma r.Notes
      basisOfRecord := "HumanObservation"
      sex := r.Sex } :: measOccs (k + 1) rs

/-- The combined occurrence output, catch-derived rows first (source line
165). -/
def occurrenceCombined (cp : List CpueRow) (ms : List MeasRow) : List OccRow :=
  catchOccs 1 cp ++ measOccs 1 ms

/-!
MeasurementOrFact extractor (source lines 173-330).
-/

/-- Zero or one record, depending on a single field being present; the
pervasive `if pd.notna(...)` guard of the extractor loops. -/
def optMof (v : Option String) (mk : String → MofRecord) : List MofRecord :=
  match v with
  | none => []
  | some x => [mk x]

/-- Organism-level records of one measurement row (source lines 176-227).
The `retained` record's dict has no `measurementUnitID` key. -/
def organismRecords (occId : String) (r : MeasRow) : List MofRecord :=
  optMof r.TL_mm (fun v =>
    { occurrenceID := some occId, measurementType := "total length",
      measurementValue := v, measurementUnit := "mm",
      measurementUnitID := some "http://qudt.org/vocab/unit/MilliM" }) ++
  optMof r.Wt_g_recorded (fun v =>
    { occurrenceID := some occId, measurementType := "weight (recorded)",
      measurementValue := v, measurementUnit := "g",
      measurementUnitID := some "http://qudt.org/vocab/unit/GM" }) ++
  optMof r.scale_tare_g (fun v =>
    { occurrenceID := some occId, measurementType := "scale tare weight",
      measurementValue := v, measurementUnit := "g",
      measurementUnitID := some "http://qudt.org/vocab/unit/GM" }) ++
  optMof r.Wt_g (fun v =>
    { occurrenceID := some occId, measurementType := "weight",
      measurementValue := v, measurementUnit := "g",
      measurementUnitID := some "http://qudt.org/vocab/unit/GM" }) ++
  optMof r.Retained (fun v =>
    { occurrenceID := some occId, measurementType := "retained",
      measurementValue := v, measurementUnit := "" })

/-- Organism-level records of the whole measurement table; each row's
subject is its occurrence identifier, indices counting up from `k` (the
`occurrenceID` column was added at source line 134). -/
def organismMofs : Nat → List MeasRow → List MofRecord
  | _, [] => []
  | k, r :: rs =>
    organismRecords (measKey r ++ "_" ++ natRepr k) r ++ organismMofs (k + 1) rs

/-- Environmental records of one station row (source lines 230-287); the
cruise identifier value is rendered through `str(int(...))`. -/
def stationMofRecords (r : StationRow) : List MofRecord :=
  optMof r.wind_speed (fun v =>
    { eventID := some r.station, measurementType := "wind speed",
      measurementValue := v, measurementUnit := "kn",
      measurementUnitID := some "http://qudt.org/vocab/unit/KN" }) ++
  optMof r.wind_dir (fun v =>
    { eventID := some r.station, measurementType := "wind direction",
      measurementValue := v, measurementUnit := "" }) ++
  optMof r.wave_height (fun v =>
    { eventID := some r.station, measurementType := "wave height",
      measurementValue := v, measurementUnit := "" }) ++
  optMof r.cloud_cover_10th (fun v =>
    { eventID := some r.station, measurementType := "cloud cover",
      measurementValue := v, measurementUnit := "tenths" }) ++
  optMof r.ropeless_id (fun v =>
    { eventID := some r.station, measurementType := "ropeless gear ID",
      measurementValue := v, measurementUnit := "" }) ++
  optMof (r.cruise_id.map (fun c => intRepr (truncInt c))) (fun v =>
    { eventID := some r.station, measurementType := "cruise ID",
      measurementValue := v, measurementUnit := "" })

/-- Environmental records of the whole station table. -/
def stationMofs : List StationRow → List MofRecord
  | [] => []
  | r :: rs => stationMofRecords r ++ stationMofs rs

/-- Gear records of one catch row (source lines 290-318). -/
def cpueMofRecords (r : CpueRow) : List MofRecord :=
  optMof r.Pot_position (fun v =>
    { eventID := some r.Station, measurementType := "pot position",
      measurementValue := v, measurementUnit := "" }) ++
  optMof r.Pot_ID (fun v =>
    { eventID := some r.Station, measurementType := "pot ID",
      measurementValue := v, measurementUnit := "" }) ++
  optMof r.Near_Far (fun v =>
    { eventID := some r.Station, measurementType := "distance category",
      measurementValue := v, measurementUnit := "" })

/-- Gear records of the whole catch table. -/
def cpueMofs : List CpueRow → List MofRecord
  | [] => []
  | r :: rs => cpueMofRecords r ++ cpueMofs rs

/-- Distance-category record of one measurement row (source lines 321-328). -/
def nearFarRecords (r : MeasRow) : List MofRecord :=
  optMof r.nearFar (fun v =>
    { eventID := some r.Station, measurementType := "distance category",
      measurementValue := v, measurementUnit := "" })

/-- Distance-category records of the whole measurement table. -/
def nearFarMofs : List MeasRow → List MofRecord
  | [] => []
  | r :: rs => nearFarRecords r ++ nearFarMofs rs

/-- The full MeasurementOrFact list, in source append order (organism
records, then station, then catch, then the measurement distance
category). -/
def mofRecords (st : List StationRow) (cp : List CpueRow) (ms : List MeasRow) :
    List MofRecord :=
  organismMofs 1 ms ++ stationMofs st ++ cpueMofs cp ++ nearFarMofs ms

/-!
Whole-script control flow (source lines 15-340): all transformation work
happens before the three `to_csv` calls at lines 338-340, so a processing
failure (the `.astype(int)` of a missing cruise identifier, line 72) aborts
the run before anything is written.
-/

/-- The three output paths, in write order (source lines 338-340). -/
def outputPaths : List String :=
  ["outputs/py_dwc_event.csv", "outputs/py_dwc_occurrence.csv",
   "outputs/py_dwc_measurementorfact.csv"]

/-- The whole transformation: the three output tables, or the error that
aborted the run. -/
def script (st : List StationRow) (cp : List CpueRow) (ms : List MeasRow) :
    Except String (List EventRow × List OccRow × List MofRecord) :=
  match stationEvents st with
  | some sevs =>
    Except.ok (cruiseRows st ++ sevs, occurrenceCombined cp ms,
      mofRecords st cp ms)
  | none => Except.error "cruise_id: cannot convert non-finite values to integer"

/-- The files the run writes: all three on success (lines 338-340 run only
after every transformation finished), none when the run aborted earlier. -/
def writtenOutputs (st : List StationRow) (cp : List CpueRow)
    (ms : List MeasRow) : List String :=
  match script st cp ms with
  | Except.ok _ => outputPaths
  | Except.error _ => []

/-!
Supporting lemmas.
-/

theorem keyList_nodup : ∀ st : List StationRow, (keyList st).Nodup := by
  intro st
  induction st with
  | nil => simp [keyList]
  | cons r rs ih =>
    simp only [keyList]
    cases r.cruise_id with
    | none => exact ih
    | some c =>
      refine List.Nodup.cons ?_ (ih.erase _)
      intro hmem
      exact absurd ((ih.mem_erase_iff).mp hmem).1 (by simp)

theorem mem_keyList {c : ℚ} {t : String} :
    ∀ st : List StationRow,
    ((c, t) ∈ keyList st ↔ ∃ r ∈ st, r.cruise_id = some c ∧ r.type = t) := by
  intro st
  induction st with
  | nil => simp [keyList]
  | cons r rs ih =>
    simp only [keyList]
    cases hcid : r.cruise_id with
    | none =>
      rw [ih]
      constructor
      · rintro ⟨a, ha, hp⟩
        exact ⟨a, List.mem_cons_of_mem _ ha, hp⟩
      · rintro ⟨a, ha, hp⟩
        rcases List.mem_cons.mp ha with rfl | ha2
        · rw [hcid] at hp; exact absurd hp.1 (by simp)
        · exact ⟨a, ha2, hp⟩
    | some c0 =>
      constructor
      · intro hmem
        rcases List.mem_cons.mp hmem with heq | hmem2
        · refine ⟨r, List.mem_cons_self _ _, ?_⟩
          have h1 : c0 = c := congrArg Prod.fst heq.symm
          have h2 : r.type = t := (congrArg Prod.snd heq).symm
          exact ⟨by rw [hcid, h1], h2⟩
        · have := ((keyList_nodup rs).mem_erase_iff.mp hmem2).2
          obtain ⟨a, ha, hp⟩ := ih.mp this
          exact ⟨a, List.mem_cons_of_mem _ ha, hp⟩
      · rintro ⟨a, ha, hcid2, htype⟩
        rcases List.mem_cons.mp ha with rfl | ha2
        · rw [hcid] at hcid2
          have : c0 = c := by injection hcid2
          rw [this, htype]
          exact List.mem_cons_self _ _
        · by_cases heq : (c, t) = (c0, r.type)
          · rw [heq]; exact List.mem_cons_self _ _
          · exact List.mem_cons_of_mem _
              ((keyList_nodup rs).mem_erase_iff.mpr ⟨heq, ih.mpr ⟨a, ha2, hcid2, htype⟩⟩)

theorem cidTypeId_inj {c₁ c₂ : Int} {t₁ t₂ : String}
    (h : cidTypeId c₁ t₁ = cidTypeId c₂ t₂) : c₁ = c₂ ∧ t₁ = t₂ := by
  obtain ⟨h1, h2⟩ := underscore_split_left (underscore_not_mem_intRepr c₁)
    (underscore_not_mem_intRepr c₂) h
  exact ⟨intRepr_inj h1, h2⟩

theorem countP_eq_one_of_nodup_mem {α : Type} [DecidableEq α]
    {l : List α} {a : α} (hn : l.Nodup) (hm : a ∈ l) :
    l.countP (fun x => decide (x = a)) = 1 := by
  induction l with
  | nil => simp at hm
  | cons b bs ih =>
    rcases List.mem_cons.mp hm with rfl | hm2
    · have hzero : bs.countP (fun x => decide (x = a)) = 0 := by
        rw [List.countP_eq_zero]
        intro x hx hax
        have : x = a := of_decide_eq_true hax
        exact (List.nodup_cons.mp hn).1 (this ▸ hx)
      rw [List.countP_cons, hzero]
      simp
    · have hne : b ≠ a := fun hba => (List.nodup_cons.mp hn).1 (hba ▸ hm2)
      rw [List.countP_cons, ih (List.nodup_cons.mp hn).2 hm2]
      simp [hne]

theorem mem_idList {α : Type} {f : α → String} {s : String} :
    ∀ (k : Nat) (rs : List α), s ∈ idList f k rs →
    ∃ a j, a ∈ rs ∧ k ≤ j ∧ s = f a ++ "_" ++ natRepr j := by
  intro k rs
  induction rs generalizing k with
  | nil => intro h; simp [idList] at h
  | cons r rs ih =>
    intro h
    rcases List.mem_cons.mp h with heq | hmem
    · exact ⟨r, k, List.mem_cons_self _ _, Nat.le_refl _, heq⟩
    · obtain ⟨a, j, ha, hj, hs⟩ := ih (k + 1) hmem
      exact ⟨a, j, List.mem_cons_of_mem _ ha, by omega, hs⟩

theorem idList_nodup {α : Type} (f : α → String) :
    ∀ (k : Nat) (rs : List α), (idList f k rs).Nodup := by
  intro k rs
  induction rs generalizing k with
  | nil => simp [idList]
  | cons r rs ih =>
    refine List.Nodup.cons ?_ (ih (k + 1))
    intro hmem
    obtain ⟨a, j, _, hj, hs⟩ := mem_idList (k + 1) rs hmem
    obtain ⟨_, hD⟩ := underscore_split_right (underscore_not_mem_natRepr k)
      (underscore_not_mem_natRepr j) hs
    have := natRepr_inj hD
    omega

/-- Whether a string starts with the measurement-occurrence marker
`MEAS_` prepended at source line 134. -/
def startsWithMEAS (s : String) : Bool :=
  match s.data with
  | 'M' :: 'E' :: 'A' :: 'S' :: '_' :: _ => true
  | _ => false

theorem startsWithMEAS_append (rest : String) :
    startsWithMEAS ("MEAS_" ++ rest) = true := by
  have : ("MEAS_" ++ rest).data = 'M' :: 'E' :: 'A' :: 'S' :: '_' :: rest.data := by
    simp [String.data_append]
  simp [startsWithMEAS, this]

theorem measId_startsWithMEAS {s : String} {k : Nat} {ms : List MeasRow}
    (h : s ∈ idList measKey k ms) : startsWithMEAS s = true := by
  obtain ⟨a, j, _, _, hs⟩ := mem_idList k ms h
  have : s = "MEAS_" ++ (a.Station ++ "_" ++ a.Species ++ "_" ++ natRepr j) := by
    rw [hs]
    simp [measKey, String.append_assoc]
  rw [this]
  exact startsWithMEAS_append _

theorem catchOccs_map_id :
    ∀ (k : Nat) (cp : List CpueRow),
    (catchOccs k cp).map (fun o => o.occurrenceID) = idList catchKey k cp := by
  intro k cp
  induction cp generalizing k with
  | nil => rfl
  | cons r rs ih => simp [catchOccs, idList, ih]

theorem measOccs_map_id :
    ∀ (k : Nat) (ms : List MeasRow),
    (measOccs k ms).map (fun o => o.occurrenceID) = idList measKey k ms := by
  intro k ms
  induction ms generalizing k with
  | nil => rfl
  | cons r rs ih => simp [measOccs, idList, ih]

theorem occurrenceCombined_map_id (cp : List CpueRow) (ms : List MeasRow) :
    (occurrenceCombined cp ms).map (fun o => o.occurrenceID) =
      idList catchKey 1 cp ++ idList measKey 1 ms := by
  simp [occurrenceCombined, catchOccs_map_id, measOccs_map_id]

theorem mem_optMof {v : Option String} {mk : String → MofRecord} {rec : MofRecord}
    (h : rec ∈ optMof v mk) : ∃ x, v = some x ∧ rec = mk x := by
  cases v with
  | none => simp [optMof] at h
  | some x =>
    simp [optMof] at h
    exact ⟨x, rfl, h⟩

theorem groupCoords_eq_nil :
    ∀ l : List StationRow, (groupCoords l = [] ↔ ∀ r ∈ l, rowCoords r = []) := by
  intro l
  induction l with
  | nil => simp [groupCoords]
  | cons r rs ih =>
    simp only [groupCoords, List.append_eq_nil, ih]
    constructor
    · rintro ⟨h1, h2⟩ a ha
      rcases List.mem_cons.mp ha with rfl | ha2
      · exact h1
      · exact h2 a ha2
    · intro h
      exact ⟨h r (List.mem_cons_self _ _), fun a ha => h a (List.mem_cons_of_mem _ ha)⟩

theorem length_optMof (v : Option String) (mk : String → MofRecord) :
    (optMof v mk).length = if v.isSome then 1 else 0 := by
  cases v <;> simp [optMof]

/-!
Concrete rows used by counterexamples and witnesses.
-/

/-- A station row with cruise 7, type deployment, a start longitude but no
start latitude, and no end coordinates. -/
def rTest : StationRow :=
  { station := "ST1", cruise_id := some 7, type := "deployment",
    lon_start := some "-70.1" }

/-- A station row like `rTest` but with the non-integer cruise identifier
7.5 (the pandas float 7.5 is the rational 15/2). -/
def rHalf : StationRow :=
  { station := "ST2", cruise_id := some (mkRat 15 2), type := "deployment" }

/-- The station event the script derives from `rTest`. -/
def evTest : EventRow :=
  { eventID := some "ST1", locationID := some "ST1",
    parentEventID := some "7_deployment", eventType := some "deployment",
    decimalLongitude := some "-70.1" }

/-- A catch row whose station code itself starts with `MEAS_`. -/
def cpX : CpueRow := { Station := "MEAS_A", Pot_ID := some "B", Species := "C" }

/-- A measurement row whose species contains an underscore. -/
def msX : MeasRow := { Station := "A", Species := "B_C" }

/-- An ordinary catch row. -/
def cp1 : CpueRow := { Station := "A", Pot_ID := some "B", Species := "C" }

/-- An ordinary measurement row. -/
def ms1 : MeasRow := { Station := "D", Species := "E" }

/-- The cruise-identifier fact record the extractor emits for `rTest`. -/
def mofTest : MofRecord :=
  { eventID := some "ST1", measurementType := "cruise ID",
    measurementValue := "7", measurementUnit := "" }

/-!
Claim C4 — occurrence identifier uniqueness.
-/

/-- C4 counterexample: with a catch station code `MEAS_A` and a measurement
species `B_C`, the catch-derived and measurement-derived occurrence
identifiers are both `MEAS_A_B_C_1`, so the combined occurrence output has a
duplicate identifier; the claim's "for any input tables" fails. -/
theorem c4_counterexample :
    (occurrenceCombined [cpX] [msX]).map (fun o => o.occurrenceID) =
      ["MEAS_A_B_C_1", "MEAS_A_B_C_1"] ∧
    ¬ ((occurrenceCombined [cpX] [msX]).map (fun o => o.occurrenceID)).Nodup :=
  ⟨by decide, by decide⟩

/-- C4 (amended): occurrence identifiers are unique within the catch-derived
rows and within the measurement-derived rows for any input, because the
1-based row index is the final underscore-separated component; identifiers
never collide across the two sources provided no catch-derived identifier
itself starts with `MEAS_` (the prefix reserved for measurement-derived
identifiers). -/
theorem c4_unique_ids :
    ∀ (cp : List CpueRow) (ms : List MeasRow),
    ((occurrenceCombined cp ms).map (fun o => o.occurrenceID) =
      idList catchKey 1 cp ++ idList measKey 1 ms) ∧
    (idList catchKey 1 cp).Nodup ∧
    (idList measKey 1 ms).Nodup ∧
    ((∀ s ∈ idList catchKey 1 cp, startsWithMEAS s = false) →
      ((occurrenceCombined cp ms).map (fun o => o.occurrenceID)).Nodup) := by
  intro cp ms
  refine ⟨occurrenceCombined_map_id cp ms, idList_nodup catchKey 1 cp,
    idList_nodup measKey 1 ms, ?_⟩
  intro hnot
  rw [occurrenceCombined_map_id, List.nodup_append]
  refine ⟨idList_nodup catchKey 1 cp, idList_nodup measKey 1 ms, ?_⟩
  intro s hs hs2
  have h1 := hnot s hs
  have h2 := measId_startsWithMEAS hs2
  rw [h1] at h2
  exact Bool.false_ne_true h2

/-- C4 witness: on a concrete ordinary input the combined occurrence
identifier list is duplicate-free. -/
theorem c4_witness :
    ((occurrenceCombined [cp1] [ms1]).map (fun o => o.occurrenceID)).Nodup :=
  (c4_unique_ids [cp1] [ms1]).2.2.2 (by decide)

/-!
Claim C5 — occurrence remark combination.
-/

/-- C5: the derived occurrence remark is `Barotrauma: {value}` when only the
barotrauma field is present, the note alone when only the note is present,
the two joined with `; ` (barotrauma first) when both are present, and
absent — never the word "None" — when both are missing. -/
theorem c5_remarks :
    ∀ b n : String,
    combine_remarks (some b) (some n) =
      some ("Barotrauma: " ++ b ++ "; " ++ n) ∧
    combine_remarks (some b) none = some ("Barotrauma: " ++ b) ∧
    combine_remarks none (some n) = some n ∧
    combine_remarks none none = none :=
  fun _ _ => ⟨rfl, rfl, rfl, rfl⟩

/-!
Claim C6 — event table columns.
-/

/-- The event-table column list asserted by the specification. -/
def specEventColumns : List String :=
  ["eventID", "locationID", "parentEventID", "eventDate", "eventType",
   "decimalLatitude", "decimalLongitude", "minimumDepthInMeters",
   "maximumDepthInMeters", "eventRemarks", "recordedBy"]

/-- C6 counterexample: a one-row station input yields a successfully written
event table whose columns are not the specified eleven — the concat brings
the cruise frame's `footprintWKT` column along. -/
theorem c6_counterexample :
    eventCoreColumns [rTest] ≠ specEventColumns ∧
    "footprintWKT" ∈ eventCoreColumns [rTest] ∧
    (script [rTest] [] []).isOk = true :=
  ⟨by decide, by decide, by decide⟩

/-- C6 (amended): whenever at least one cruise event exists the written event
table has exactly the specified eleven columns plus `footprintWKT`, in concat
union order (cruise-frame columns first, then the new station columns); when
no cruise event exists (`pd.DataFrame([])` has no columns) it has exactly the
specified eleven. -/
theorem c6_columns :
    ∀ st : List StationRow,
    eventCoreColumns st =
      if keyList st = [] then specEventColumns
      else
        ["eventID", "eventDate", "eventType", "parentEventID", "footprintWKT",
         "locationID", "decimalLatitude", "decimalLongitude",
         "minimumDepthInMeters", "maximumDepthInMeters", "eventRemarks",
         "recordedBy"] := by
  intro st
  by_cases h : keyList st = []
  · rw [if_pos h]
    simp only [eventCoreColumns, cruiseEventColumns, if_pos h]
    decide
  · rw [if_neg h]
    simp only [eventCoreColumns, cruiseEventColumns, if_neg h]
    decide

/-!
Claim C8 — all-or-nothing run.
-/

/-- C8: all transformation work precedes the three `to_csv` calls, so a run
either succeeds and writes all three output files or fails before writing
anything; no partial output set is written.  (File-system failures during the
writes themselves are outside this embedding.) -/
theorem c8_all_or_nothing :
    ∀ (st : List StationRow) (cp : List CpueRow) (ms : List MeasRow),
    ((script st cp ms).isOk = true ∧ writtenOutputs st cp ms = outputPaths) ∨
    ((script st cp ms).isOk = false ∧ writtenOutputs st cp ms = []) := by
  intro st cp ms
  cases h : stationEvents st <;>
    simp [script, writtenOutputs, h, Except.isOk, Except.toBool]

/-!
Claim C1 — cruise footprint.
-/

theorem mkFootprint_eq_none {l : List String} : mkFootprint l = none ↔ l = [] := by
  cases l <;> simp [mkFootprint]

/-- Modelled from the claim's words (C1): the number of start/end coordinate
pairs of one station row having at least one non-missing ordinate. -/
def pairsWithAnyOrdinate (r : StationRow) : Nat :=
  (if r.lon_start.isSome ∨ r.lat_start.isSome then 1 else 0) +
  (if r.lon_end.isSome ∨ r.lat_end.isSome then 1 else 0)

/-- C1 counterexample: `rTest` has a start pair with a non-missing ordinate
(the longitude), so under the claim its group's footprint would be a
one-vertex line; the code, which requires both ordinates, produces an absent
footprint. -/
theorem c1_counterexample :
    pairsWithAnyOrdinate rTest = 1 ∧
    (cruiseRows [rTest]).map (fun e => (e.eventID, e.footprintWKT)) =
      [(some "7_deployment", none)] :=
  ⟨by decide, by decide⟩

/-- C1 (amended): for every (cruise identifier, type) group, the cruise
event's footprint is the line whose vertex sequence is every start/end
coordinate pair in the group with both ordinates non-missing, in original
row order, rendered as `LINESTRING (...)`; a row contributes one vertex per
fully-present endpoint (so a station missing only one endpoint contributes
exactly one point), and a group with no valid coordinates has an absent
footprint. -/
theorem c1_footprint :
    ∀ (st : List StationRow) (c : ℚ) (t : String),
    (c, t) ∈ keyList st →
    (∃ e ∈ cruiseRows st,
      e.eventID = some (cidTypeId (truncInt c) t) ∧
      e.footprintWKT = mkFootprint (groupCoords (groupMembers st c t)) ∧
      (e.footprintWKT = none ↔ ∀ r ∈ groupMembers st c t, rowCoords r = []) ∧
      (∀ s, e.footprintWKT = some s →
        s = "LINESTRING (" ++
          joinSep ", " (groupCoords (groupMembers st c t)) ++ ")")) ∧
    (∀ r : StationRow, (rowCoords r).length =
      (if r.lon_start.isSome ∧ r.lat_start.isSome then 1 else 0) +
      (if r.lon_end.isSome ∧ r.lat_end.isSome then 1 else 0)) := by
  intro st c t hk
  constructor
  · refine ⟨mkCruiseRow st (c, t), List.mem_map_of_mem _ hk, rfl, rfl, ?_, ?_⟩
    · show mkFootprint (groupCoords (groupMembers st c t)) = none ↔ _
      rw [mkFootprint_eq_none]
      exact groupCoords_eq_nil _
    · intro s hs
      show _ = _
      revert hs
      show mkFootprint (groupCoords (groupMembers st c t)) = some s → _
      cases groupCoords (groupMembers st c t) with
      | nil => intro hs; simp [mkFootprint] at hs
      | cons x xs =>
        intro hs
        simp only [mkFootprint, Option.some.injEq] at hs
        exact hs.symm
  · intro r
    rcases r with ⟨_, _, _, _, la_s, lo_s, la_e, lo_e, _, _, _, _, _, _, _, _⟩
    cases la_s <;> cases lo_s <;> cases la_e <;> cases lo_e <;>
      simp [rowCoords]

/-- C1 witness: the cruise event `7_deployment` exists for the concrete
one-row input. -/
theorem c1_witness :
    some "7_deployment" ∈ (cruiseRows [rTest]).map (fun e => e.eventID) := by
  obtain ⟨e, he, hid, _⟩ := (c1_footprint [rTest] 7 "deployment" (by decide)).1
  exact List.mem_map.mpr ⟨e, he, by rw [hid]; decide⟩

/-!
Claim C2 — station parent identifier.
-/

/-- C2 counterexample: the cruise identifier column is a float, and
`int()` truncates (line 52), so cruise groups `7.0_deployment` and
`7.5_deployment` are distinct `groupby` groups whose rendered event
identifiers coincide.  `rTest` has the integer-valued cruise identifier 7
and gets parent `7_deployment`, but that identifier occurs twice among the
derived cruise events of `[rTest, rHalf]`, refuting "exactly once". -/
theorem c2_counterexample :
    rTest.cruise_id = some ((7 : Int) : ℚ) ∧
    (stationEvents [rTest, rHalf]).map
      (fun l => l.map (fun e => e.parentEventID)) =
      some [some "7_deployment", some "7_deployment"] ∧
    (cruiseRows [rTest, rHalf]).countP
      (fun e => decide (e.eventID = some (cidTypeId 7 "deployment"))) = 2 :=
  ⟨by decide, by decide, by decide⟩

/-- C2 (amended): for every station row with an integer-valued cruise
identifier (the derivation succeeds only when all rows have one), the
derived station event's parent identifier is `{int(cruise_id)}_{type}`;
that identifier occurs exactly once among the derived cruise events
whenever every cruise identifier in the station table is integer-valued,
so that `int()` truncation cannot merge two distinct groups into one
rendered identifier. -/
theorem c2_parent_id :
    ∀ (st : List StationRow) (sevs : List EventRow) (i : Nat)
      (hi : i < st.length) (n : Int),
    stationEvents st = some sevs →
    (st.get ⟨i, hi⟩).cruise_id = some ((n : Int) : ℚ) →
    (∃ hi2 : i < sevs.length,
      (sevs.get ⟨i, hi2⟩).parentEventID =
        some (cidTypeId n (st.get ⟨i, hi⟩).type)) ∧
    ((∀ r ∈ st, (r.cruise_id.getD 0).den = 1) →
      (cruiseRows st).countP
        (fun e => decide (e.eventID = some (cidTypeId n (st.get ⟨i, hi⟩).type)))
        = 1) := by
  intro st sevs i hi n hse hcid
  have hsevs : sevs = st.map stationEventRow := by
    unfold stationEvents at hse
    split at hse
    · exact (Option.some.injEq _ _ ▸ hse :
        st.map stationEventRow = sevs).symm
    · exact absurd hse (by simp)
  have hi2 : i < sevs.length := by
    rw [hsevs, List.length_map]
    exact hi
  constructor
  · refine ⟨hi2, ?_⟩
    have hget : sevs.get ⟨i, hi2⟩ = stationEventRow (st.get ⟨i, hi⟩) := by
      subst hsevs
      simp [List.get_eq_getElem, List.getElem_map]
    rw [hget]
    show (st.get ⟨i, hi⟩).cruise_id.map _ = _
    rw [hcid]
    show some (cidTypeId (truncInt ((n : Int) : ℚ)) _) = _
    rw [truncInt_intCast]
  · intro hall
    have hden : ∀ k ∈ keyList st, (k : ℚ × String).1.den = 1 := by
      intro k hk
      obtain ⟨r, hr, hrc, _⟩ := (mem_keyList st).mp (by
        show (k.1, k.2) ∈ keyList st
        simpa using hk)
      have := hall r hr
      rw [hrc] at this
      simpa using this
    rw [cruiseRows, List.countP_map]
    have hcongr :
        (keyList st).countP
          ((fun e => decide (e.eventID =
            some (cidTypeId n (st.get ⟨i, hi⟩).type))) ∘ mkCruiseRow st) =
        (keyList st).countP
          (fun k => decide (k = (((n : Int) : ℚ), (st.get ⟨i, hi⟩).type))) := by
      apply List.countP_congr
      intro k hkmem
      simp only [Function.comp, mkCruiseRow]
      by_cases hk : k = (((n : Int) : ℚ), (st.get ⟨i, hi⟩).type)
      · subst hk
        simp [truncInt_intCast]
      · have hne : cidTypeId (truncInt k.1) k.2 ≠
            cidTypeId n (st.get ⟨i, hi⟩).type := by
          intro heq
          obtain ⟨h1, h2⟩ := cidTypeId_inj heq
          have hd1 : k.1.den = 1 := hden k hkmem
          have hnum : k.1.num = n := by rw [← truncInt_den_one hd1, h1]
          have hfst : k.1 = ((n : Int) : ℚ) := by
            rw [← cast_num_of_den_one hd1, hnum]
          exact hk (Prod.ext hfst h2)
        rw [decide_eq_false (fun h => hne (Option.some.inj h)),
          decide_eq_false hk]
    rw [hcongr]
    exact countP_eq_one_of_nodup_mem (keyList_nodup st)
      (mem_keyList st |>.mpr ⟨st.get ⟨i, hi⟩, List.get_mem st i hi, hcid, rfl⟩)

/-- C2 witness: for the concrete one-row all-integer input, the cruise
event identifier `7_deployment` occurs exactly once among the derived
cruise events. -/
theorem c2_witness :
    (cruiseRows [rTest]).countP
      (fun e => decide (e.eventID = some (cidTypeId 7 "deployment"))) = 1 :=
  (c2_parent_id [rTest] [evTest] 0 (by decide) 7 (by decide) (by decide)).2
    (by decide)

/-!
Claim C3 — measurement-or-fact subject links.
-/

theorem mem_organismRecords {rec : MofRecord} {occId : String} {r : MeasRow}
    (h : rec ∈ organismRecords occId r) :
    rec.occurrenceID = some occId ∧ rec.eventID = none := by
  simp only [organismRecords, List.mem_append] at h
  rcases h with ((((h | h) | h) | h) | h) <;>
    (obtain ⟨x, _, rfl⟩ := mem_optMof h; exact ⟨rfl, rfl⟩)

theorem mem_organismMofs {rec : MofRecord} :
    ∀ (k : Nat) (ms : List MeasRow), rec ∈ organismMofs k ms →
    rec.occurrenceID.isSome = true ∧ rec.eventID = none := by
  intro k ms
  induction ms generalizing k with
  | nil => intro h; simp [organismMofs] at h
  | cons r rs ih =>
    intro h
    rcases List.mem_append.mp h with h1 | h2
    · obtain ⟨hocc, hev⟩ := mem_organismRecords h1
      exact ⟨by rw [hocc]; rfl, hev⟩
    · exact ih (k + 1) h2

theorem mem_stationMofRecords {rec : MofRecord} {r : StationRow}
    (h : rec ∈ stationMofRecords r) :
    rec.eventID = some r.station ∧ rec.occurrenceID = none := by
  simp only [stationMofRecords, List.mem_append] at h
  rcases h with (((((h | h) | h) | h) | h) | h) <;>
    (obtain ⟨x, _, rfl⟩ := mem_optMof h; exact ⟨rfl, rfl⟩)

theorem mem_stationMofs {rec : MofRecord} :
    ∀ st : List StationRow, rec ∈ stationMofs st →
    rec.eventID.isSome = true ∧ rec.occurrenceID = none := by
  intro st
  induction st with
  | nil => intro h; simp [stationMofs] at h
  | cons r rs ih =>
    intro h
    rcases List.mem_append.mp h with h1 | h2
    · obtain ⟨hev, hocc⟩ := mem_stationMofRecords h1
      exact ⟨by rw [hev]; rfl, hocc⟩
    · exact ih h2

theorem mem_cpueMofRecords {rec : MofRecord} {r : CpueRow}
    (h : rec ∈ cpueMofRecords r) :
    rec.eventID = some r.Station ∧ rec.occurrenceID = none := by
  simp only [cpueMofRecords, List.mem_append] at h
  rcases h with ((h | h) | h) <;>
    (obtain ⟨x, _, rfl⟩ := mem_optMof h; exact ⟨rfl, rfl⟩)

theorem mem_cpueMofs {rec : MofRecord} :
    ∀ cp : List CpueRow, rec ∈ cpueMofs cp →
    rec.eventID.isSome = true ∧ rec.occurrenceID = none := by
  intro cp
  induction cp with
  | nil => intro h; simp [cpueMofs] at h
  | cons r rs ih =>
    intro h
    rcases List.mem_append.mp h with h1 | h2
    · obtain ⟨hev, hocc⟩ := mem_cpueMofRecords h1
      exact ⟨by rw [hev]; rfl, hocc⟩
    · exact ih h2

theorem mem_nearFarMofs {rec : MofRecord} :
    ∀ ms : List MeasRow, rec ∈ nearFarMofs ms →
    rec.eventID.isSome = true ∧ rec.occurrenceID = none := by
  intro ms
  induction ms with
  | nil => intro h; simp [nearFarMofs] at h
  | cons r rs ih =>
    intro h
    rcases List.mem_append.mp h with h1 | h2
    · obtain ⟨x, _, rfl⟩ := mem_optMof h1
      exact ⟨rfl, rfl⟩
    · exact ih h2

/-- C3: every measurement-or-fact record carries exactly one subject link —
organism-level records from the measurement table an occurrence identifier
and no event identifier, and the environmental/gear records from the
station, catch, and measurement tables an event identifier and no occurrence
identifier. -/
theorem c3_subject_link :
    ∀ (st : List StationRow) (cp : List CpueRow) (ms : List MeasRow),
    (∀ rec ∈ organismMofs 1 ms,
      rec.occurrenceID.isSome = true ∧ rec.eventID = none) ∧
    (∀ rec ∈ stationMofs st ++ cpueMofs cp ++ nearFarMofs ms,
      rec.eventID.isSome = true ∧ rec.occurrenceID = none) ∧
    (∀ rec ∈ mofRecords st cp ms,
      (rec.occurrenceID.isSome = true ∧ rec.eventID = none) ∨
      (rec.eventID.isSome = true ∧ rec.occurrenceID = none)) := by
  intro st cp ms
  have henv : ∀ rec ∈ stationMofs st ++ cpueMofs cp ++ nearFarMofs ms,
      rec.eventID.isSome = true ∧ rec.occurrenceID = none := by
    intro rec h
    rcases List.mem_append.mp h with h1 | h2
    · rcases List.mem_append.mp h1 with h3 | h4
      · exact mem_stationMofs st h3
      · exact mem_cpueMofs cp h4
    · exact mem_nearFarMofs ms h2
  refine ⟨fun rec h => mem_organismMofs 1 ms h, henv, ?_⟩
  intro rec h
  rcases List.mem_append.mp h with h1 | h2
  · rcases List.mem_append.mp h1 with h3 | h4
    · rcases List.mem_append.mp h3 with h5 | h6
      · exact Or.inl (mem_organismMofs 1 ms h5)
      · exact Or.inr (mem_stationMofs st h6)
    · exact Or.inr (mem_cpueMofs cp h4)
  · exact Or.inr (mem_nearFarMofs ms h2)

/-- C3 witness: the concrete cruise-identifier fact record emitted for
`rTest` carries exactly the event-side subject link. -/
theorem c3_witness :
    (mofTest.occurrenceID.isSome = true ∧ mofTest.eventID = none) ∨
    (mofTest.eventID.isSome = true ∧ mofTest.occurrenceID = none) :=
  (c3_subject_link [rTest] [] []).2.2 mofTest (by decide)

/-!
Claim C7 — independent per-field emission in the measurement extractor.
-/

theorem countP_optMof (v : Option String) (mk : String → MofRecord)
    (p : MofRecord → Bool) :
    (optMof v mk).countP p =
      match v with
      | none => 0
      | some x => if p (mk x) then 1 else 0 := by
  cases v <;> simp [optMof, List.countP_cons]

/-- C7: presence is checked independently per field — every non-missing
field of a row yields exactly one record and every missing field yields
none, so each row contributes between zero and its full field count of
records; in particular a measurement row with `TL_mm` missing emits zero
"total length" records while its other present fields still produce
records. -/
theorem c7_per_field :
    ∀ (oid : String) (r : MeasRow) (sr : StationRow) (cr : CpueRow),
    ((organismRecords oid r).length =
      (if r.TL_mm.isSome then 1 else 0) +
      (if r.Wt_g_recorded.isSome then 1 else 0) +
      (if r.scale_tare_g.isSome then 1 else 0) +
      (if r.Wt_g.isSome then 1 else 0) +
      (if r.Retained.isSome then 1 else 0)) ∧
    ((organismRecords oid r).countP
        (fun m => decide (m.measurementType = "total length")) =
      if r.TL_mm.isSome then 1 else 0) ∧
    ((organismRecords oid r).countP
        (fun m => decide (m.measurementType = "weight (recorded)")) =
      if r.Wt_g_recorded.isSome then 1 else 0) ∧
    ((organismRecords oid r).countP
        (fun m => decide (m.measurementType = "scale tare weight")) =
      if r.scale_tare_g.isSome then 1 else 0) ∧
    ((organismRecords oid r).countP
        (fun m => decide (m.measurementType = "weight")) =
      if r.Wt_g.isSome then 1 else 0) ∧
    ((organismRecords oid r).countP
        (fun m => decide (m.measurementType = "retained")) =
      if r.Retained.isSome then 1 else 0) ∧
    ((stationMofRecords sr).length =
      (if sr.wind_speed.isSome then 1 else 0) +
      (if sr.wind_dir.isSome then 1 else 0) +
      (if sr.wave_height.isSome then 1 else 0) +
      (if sr.cloud_cover_10th.isSome then 1 else 0) +
      (if sr.ropeless_id.isSome then 1 else 0) +
      (if sr.cruise_id.isSome then 1 else 0)) ∧
    ((cpueMofRecords cr).length =
      (if cr.Pot_position.isSome then 1 else 0) +
      (if cr.Pot_ID.isSome then 1 else 0) +
      (if cr.Near_Far.isSome then 1 else 0)) ∧
    ((nearFarRecords r).length = if r.nearFar.isSome then 1 else 0) := by
  intro oid r sr cr
  refine ⟨?_, ?_, ?_, ?_, ?_, ?_, ?_, ?_, ?_⟩
  · simp only [organismRecords, List.length_append, length_optMof]
  · simp only [organismRecords, List.countP_append, countP_optMof]
    cases r.TL_mm <;> cases r.Wt_g_recorded <;> cases r.scale_tare_g <;>
      cases r.Wt_g <;> cases r.Retained <;> simp
  · simp only [organismRecords, List.countP_append, countP_optMof]
    cases r.TL_mm <;> cases r.Wt_g_recorded <;> cases r.scale_tare_g <;>
      cases r.Wt_g <;> cases r.Retained <;> simp
  · simp only [organismRecords, List.countP_append, countP_optMof]
    cases r.TL_mm <;> cases r.Wt_g_recorded <;> cases r.scale_tare_g <;>
      cases r.Wt_g <;> cases r.Retained <;> simp
  · simp only [organismRecords, List.countP_append, countP_optMof]
    cases r.TL_mm <;> cases r.Wt_g_recorded <;> cases r.scale_tare_g <;>
      cases r.Wt_g <;> cases r.Retained <;> simp
  · simp only [organismRecords, List.countP_append, countP_optMof]
    cases r.TL_mm <;> cases r.Wt_g_recorded <;> cases r.scale_tare_g <;>
      cases r.Wt_g <;> cases r.Retained <;> simp
  · simp only [stationMofRecords, List.length_append, length_optMof]
    cases sr.cruise_id <;> simp
  · simp only [cpueMofRecords, List.length_append, length_optMof]
  · simp [nearFarRecords, length_optMof]

/-!
Claim C9 — station event location identifier.
-/

/-- C9: every derived station event's `locationID` equals its `eventID`,
both being the source row's station code, and cruise events carry no
`locationID`. -/
theorem c9_location_id :
    ∀ (st : List StationRow) (sevs : List EventRow),
    stationEvents st = some sevs →
    sevs.length = st.length ∧
    (∀ (i : Nat) (hi : i < sevs.length) (hi2 : i < st.length),
      (sevs.get ⟨i, hi⟩).locationID = (sevs.get ⟨i, hi⟩).eventID ∧
      (sevs.get ⟨i, hi⟩).eventID = some (st.get ⟨i, hi2⟩).station) ∧
    (∀ e ∈ cruiseRows st, e.locationID = none) := by
  intro st sevs hse
  have hsevs : sevs = st.map stationEventRow := by
    unfold stationEvents at hse
    split at hse
    · exact (Option.some.injEq _ _ ▸ hse :
        st.map stationEventRow = sevs).symm
    · exact absurd hse (by simp)
  refine ⟨by rw [hsevs, List.length_map], ?_, ?_⟩
  · intro i hi hi2
    have hget : sevs.get ⟨i, hi⟩ = stationEventRow (st.get ⟨i, hi2⟩) := by
      subst hsevs
      simp [List.get_eq_getElem, List.getElem_map]
    rw [hget]
    exact ⟨rfl, rfl⟩
  · intro e he
    obtain ⟨k, _, rfl⟩ := List.mem_map.mp he
    rfl

/-- C9 witness: for the concrete one-row input, the derived station event's
location identifier equals its event identifier. -/
theorem c9_witness :
    ([evTest].get ⟨0, Nat.one_pos⟩).locationID =
      ([evTest].get ⟨0, Nat.one_pos⟩).eventID :=
  ((c9_location_id [rTest] [evTest] (by decide)).2.1 0 Nat.one_pos
    (by decide)).1

/-!
Claim C10 — parent identifiers in the combined event table.
-/

/-- C10: in the combined event table (cruise events followed by station
events), cruise events are the exact rows with an absent parent identifier:
every cruise event has a null parent and, when the derivation succeeds (all
cruise identifiers integer-valued), every station event has a present
parent identifier. -/
theorem c10_parent_iff_cruise :
    ∀ (st : List StationRow) (sevs : List EventRow),
    stationEvents st = some sevs →
    eventCore st = some (cruiseRows st ++ sevs) ∧
    (∀ e ∈ cruiseRows st, e.parentEventID = none) ∧
    (∀ e ∈ sevs, e.parentEventID.isSome = true) := by
  intro st sevs hse
  have hcore : eventCore st = some (cruiseRows st ++ sevs) := by
    unfold eventCore
    rw [hse]
    rfl
  have hall : ∀ r ∈ st, r.cruise_id.isSome = true := by
    unfold stationEvents at hse
    split at hse
    · next hcond => exact fun r hr => List.all_eq_true.mp hcond r hr
    · exact absurd hse (by simp)
  have hsevs : sevs = st.map stationEventRow := by
    unfold stationEvents at hse
    split at hse
    · exact (Option.some.injEq _ _ ▸ hse :
        st.map stationEventRow = sevs).symm
    · exact absurd hse (by simp)
  refine ⟨hcore, ?_, ?_⟩
  · intro e he
    obtain ⟨k, _, rfl⟩ := List.mem_map.mp he
    rfl
  · intro e he
    rw [hsevs] at he
    obtain ⟨r, hr, rfl⟩ := List.mem_map.mp he
    show (r.cruise_id.map (fun c => cidTypeId (truncInt c) r.type)).isSome = true
    cases hc : r.cruise_id with
    | none =>
      have := hall r hr
      rw [hc] at this
      simp at this
    | some c => rfl

/-- C10 witness: the concrete derived station event has a present parent
identifier. -/
theorem c10_witness : evTest.parentEventID.isSome = true :=
  (c10_parent_iff_cruise [rTest] [evTest] (by decide)).2.2 evTest (by decide)

end MobDwc
